import Mathlib

set_option maxRecDepth 10000

/-!
Shallow embedding of the Companies House scraper core
(`api_client.py`, `validators.py`, `downloader.py`) and proofs of the
spec claims about it.

Timestamps are modelled as rationals (Python uses real-valued
`time.time()`), bytes as naturals, and the filesystem / network as
explicit values threaded through the functions.
-/

namespace CompaniesHouse

/-! ## RateLimiter (`api_client.py`, lines 40-93)

State: a FIFO deque of request timestamps plus the configuration.
`wait_if_needed` is modelled as a pure state transition taking the
current time `now` and returning the new state together with the time
slept (0 when no sleep happened).  After a sleep of `s` seconds the
appended timestamp is `now + s`, the idealisation of the second
`time.time()` call. -/

structure RateLimiterState where
  maxRequests : ℕ
  windowSeconds : ℚ
  /-- FIFO of request timestamps, oldest first. -/
  requests : List ℚ
deriving Repr, DecidableEq

/-- `RateLimiter.__init__`: empty deque. -/
def RateLimiterState.init (maxRequests : ℕ) (windowSeconds : ℚ) : RateLimiterState :=
  { maxRequests := maxRequests, windowSeconds := windowSeconds, requests := [] }

/-- The `while self.requests and self.requests[0] < now - self.window_seconds:
self.requests.popleft()` loop: drop leading timestamps strictly older than
`now - window`. -/
def pruneWindow (windowSeconds now : ℚ) : List ℚ → List ℚ
  | [] => []
  | t :: ts => if t < now - windowSeconds then pruneWindow windowSeconds now ts else t :: ts

/-- `RateLimiter.wait_if_needed`, returning the new state and the slept time. -/
def wait_if_needed (s : RateLimiterState) (now : ℚ) : RateLimiterState × ℚ :=
  let pruned := pruneWindow s.windowSeconds now s.requests
  if s.maxRequests ≤ pruned.length then
    let sleepTime := pruned.headD 0 + s.windowSeconds - now
    ({ s with requests := pruned.tail ++ [now + sleepTime] }, sleepTime)
  else
    ({ s with requests := pruned ++ [now] }, 0)

/-- Run a sequence of `wait_if_needed` calls at the given call times. -/
def runCalls (s : RateLimiterState) : List ℚ → RateLimiterState
  | [] => s
  | now :: rest => runCalls (wait_if_needed s now).1 rest

/-- Number of recorded timestamps lying within the trailing window
`(t - w, t]` at observation time `t`. -/
def countWithin (t w : ℚ) (ts : List ℚ) : ℕ :=
  (ts.filter (fun x => decide (t - w < x) && decide (x ≤ t))).length

/-! ## Pagination (`api_client.py`, lines 242-312)

`_paginated_get` is modelled over an abstract remote: a function from the
requested `start_index` to the decoded JSON page, which carries an item
list and the two optional total fields.  Individual items are opaque and
modelled as naturals.  The pair returned is the result dictionary and the
number of page requests issued. -/

def DEFAULT_ITEMS_PER_PAGE : ℕ := 100

def MAX_PAGINATION_ITERATIONS : ℕ := 1000

structure PageResponse where
  items : List ℕ
  total_count : Option ℤ
  total_results : Option ℤ

structure PagedResult where
  items : List ℕ
  total_results : ℕ
deriving DecidableEq

/-- `data.get('total_count') or data.get('total_results', 0)`: Python `or`
falls through when the left operand is falsy, i.e. missing (`None`) or `0`. -/
def selectTotal (tc tr : Option ℤ) : ℤ :=
  match tc with
  | some v => if v ≠ 0 then v else tr.getD 0
  | none => tr.getD 0

/-- The body of the `for iteration in range(MAX_PAGINATION_ITERATIONS)` loop;
`fuel` is the number of remaining iterations.  Returns the accumulated items
and the number of page requests issued. -/
def paginatedLoop (remote : ℕ → PageResponse) (itemsPerPage : ℕ) :
    ℕ → ℕ → List ℕ → ℕ → List ℕ × ℕ
  | 0, _, acc, reqs => (acc, reqs)
  | fuel + 1, startIndex, acc, reqs =>
    let data := remote startIndex
    let items := data.items
    if items.isEmpty then
      (acc, reqs + 1)
    else
      let accNew := acc ++ items
      let total := selectTotal data.total_count data.total_results
      if items.length < itemsPerPage then
        (accNew, reqs + 1)
      else if 0 < total ∧ total ≤ (accNew.length : ℤ) then
        (accNew, reqs + 1)
      else
        paginatedLoop remote itemsPerPage fuel (startIndex + itemsPerPage) accNew (reqs + 1)

/-- `CompaniesHouseAPI._paginated_get`: run the loop from `start_index = 0`
and return `{'items': all_items, 'total_results': len(all_items)}` together
with the number of page requests issued. -/
def paginated_get (remote : ℕ → PageResponse) (itemsPerPage : ℕ) :
    PagedResult × ℕ :=
  let r := paginatedLoop remote itemsPerPage MAX_PAGINATION_ITERATIONS 0 [] 0
  ({ items := r.1, total_results := r.1.length }, r.2)

/-- Simulated remote serving pages of sizes `[100, 100, 37]`, no totals. -/
def remotePages100_100_37 : ℕ → PageResponse := fun startIndex =>
  if startIndex = 0 then ⟨List.range 100, none, none⟩
  else if startIndex = 100 then ⟨List.range 100, none, none⟩
  else if startIndex = 200 then ⟨List.range 37, none, none⟩
  else ⟨[], none, none⟩

/-- Simulated remote serving pages of sizes `[100, 100, 0]`, no totals. -/
def remotePages100_100_0 : ℕ → PageResponse := fun startIndex =>
  if startIndex = 0 then ⟨List.range 100, none, none⟩
  else if startIndex = 100 then ⟨List.range 100, none, none⟩
  else ⟨[], none, none⟩

/-- Simulated remote that always serves one full page and never signals a
total. -/
def remoteAlwaysFull : ℕ → PageResponse := fun _ => ⟨[0], none, none⟩

/-- Simulated remote serving one-item pages and reporting `total_count = 1`. -/
def remoteTotalOne : ℕ → PageResponse := fun _ => ⟨[5], some 1, none⟩


/-! ## Validators (`validators.py`)

Strings are manipulated through their character lists.  `pyStrip` models
`str.strip()`, `pySliceTo` models the Python slice `s[:j]` including
negative `j`. -/

/-- Python `str.strip()`: drop leading and trailing whitespace. -/
def pyStrip (s : List Char) : List Char :=
  ((s.dropWhile Char.isWhitespace).reverse.dropWhile Char.isWhitespace).reverse

/-- Python `str.isdigit()`: nonempty and all digits. -/
def pyIsDigit (s : List Char) : Bool :=
  !s.isEmpty && s.all Char.isDigit

/-- One character of the regex class `[A-Z0-9]`. -/
def isUpperAlnum (c : Char) : Bool :=
  ('A' ≤ c && c ≤ 'Z') || ('0' ≤ c && c ≤ '9')

/-- `validate_company_number` (`validators.py`, lines 43-78): reject empty
input, strip and upper-case, require 1-8 chars of `[A-Z0-9]`, zero-pad to 8
when purely numeric. -/
def validate_company_number (number : String) : Except String String :=
  if number = "" then
    .error "Company number must be a non-empty string"
  else
    let n := (pyStrip number.toList).map Char.toUpper
    if 1 ≤ n.length ∧ n.length ≤ 8 ∧ n.all isUpperAlnum then
      if pyIsDigit n then
        .ok (String.mk (List.replicate (8 - n.length) '0' ++ n))
      else
        .ok (String.mk n)
    else
      .error ("Invalid company number format: " ++ String.mk n)

/-- One character of the regex class `[<>:"/\\|?*\x00-\x1f]` replaced by
`sanitize_filename`. -/
def isInvalidFilenameChar (c : Char) : Bool :=
  c = '<' || c = '>' || c = ':' || c = '\"' || c = '/' || c = '\\' || c = '|' ||
    c = '?' || c = '*' || decide (c.toNat ≤ 0x1f)

/-- `re.sub(r'[<>:"/\\|?*\x00-\x1f]', '_', filename)`: each matching
character is replaced, one for one, with an underscore. -/
def replaceInvalidChars (s : List Char) : List Char :=
  s.map (fun c => if isInvalidFilenameChar c then '_' else c)

/-- Python `.strip('. ')`: drop leading and trailing dots and spaces. -/
def stripDotsSpaces (s : List Char) : List Char :=
  ((s.dropWhile (fun c => c = '.' || c = ' ')).reverse.dropWhile
    (fun c => c = '.' || c = ' ')).reverse

/-- Python slice `s[:j]` for a possibly negative bound `j`. -/
def pySliceTo (s : List Char) (j : ℤ) : List Char :=
  if 0 ≤ j then s.take j.toNat else s.take ((s.length : ℤ) + j).toNat

/-- Python `filename.rsplit('.', 1)` (assuming a dot occurs): split at the
last dot into `(name, ext)`. -/
def rsplitDot (s : List Char) : List Char × List Char :=
  let rev := s.reverse
  let extRev := rev.takeWhile (fun c => c ≠ '.')
  ((rev.drop (extRev.length + 1)).reverse, extRev.reverse)

/-- The length-limit step of `sanitize_filename`: `if len(filename) >
max_length: name, ext = filename.rsplit('.', 1) if '.' in filename else
(filename, ''); ...`. -/
def sanitizeTruncate (f2 : List Char) (maxLength : ℕ) : List Char :=
  if maxLength < f2.length then
    let p := if f2.contains '.' then rsplitDot f2 else (f2, [])
    if p.2 ≠ [] then
      pySliceTo p.1 ((maxLength : ℤ) - p.2.length - 1) ++ '.' :: p.2
    else
      p.1.take maxLength
  else f2

/-- `sanitize_filename` (`validators.py`, lines 110-147): replace invalid
characters with underscores, strip leading/trailing dots and spaces,
truncate to the length limit preserving the extension, fall back to
`'unnamed'` when empty. -/
def sanitize_filename (filename : String) (maxLength : ℕ) : String :=
  let f3 := sanitizeTruncate (stripDotsSpaces (replaceInvalidChars filename.toList)) maxLength
  if f3 = [] then "unnamed" else String.mk f3


/-! ## Progress record (`downloader.py`, lines 361-412)

`update_progress` is modelled as a pure transformation of the parsed
progress JSON; `none` as input models a missing progress file.  The
timestamp fields are not modelled. -/

structure Progress where
  company_number : Option String
  completed : List String
  failed : List (String × Option String)
  total_documents : ℕ
  downloaded : ℕ
deriving DecidableEq

/-- The fresh record created when the progress file does not exist. -/
def Progress.initial : Progress :=
  { company_number := none, completed := [], failed := [], total_documents := 0,
    downloaded := 0 }

/-- `DocumentDownloader.update_progress` on the parsed record. -/
def update_progress (file : Option Progress) (doc_id : String)
    (success : Bool) (error : Option String) : Progress :=
  let p := file.getD Progress.initial
  if success then
    if doc_id ∈ p.completed then p
    else
      let completed := p.completed ++ [doc_id]
      { p with completed := completed, downloaded := completed.length }
  else
    { p with failed := p.failed ++ [(doc_id, error)] }

/-- A sequence of `update_progress` calls on the same progress file. -/
def runUpdates (p : Progress) : List (String × Bool × Option String) → Progress
  | [] => p
  | (d, succ, e) :: rest => runUpdates (update_progress (some p) d succ e) rest

/-- The progress-record invariant of the spec: no duplicate completed
doc_id, and the downloaded counter equals the completed count. -/
def Progress.wellFormed (p : Progress) : Prop :=
  p.completed.Nodup ∧ p.downloaded = p.completed.length

/-! ## Composite fetch (`api_client.py`, lines 565-638)

`get_all_data` iterates the fixed endpoint table; each collection fetch is
an abstract `Except`-valued operation (an `error` models a raised
`HTTPError` or other exception, carrying the formatted message).  The
payloads are opaque. -/

def endpointKeys : List String :=
  ["profile", "officers", "filing_history", "charges", "insolvency", "psc",
   "uk_establishments", "exemptions"]

structure AllDataResult where
  results : List (String × Option ℕ)
  errors : List (String × String)

/-- `CompaniesHouseAPI.get_all_data`: fetch each endpoint in order, storing
the data on success and `None` plus an error-map entry on failure. -/
def get_all_data (fetch : String → Except String ℕ) : AllDataResult :=
  endpointKeys.foldl
    (fun acc key =>
      match fetch key with
      | .ok d => { acc with results := acc.results ++ [(key, some d)] }
      | .error e =>
          { results := acc.results ++ [(key, none)],
            errors := acc.errors ++ [(key, e)] })
    ⟨[], []⟩

/-! ## Download with validation (`downloader.py`, lines 95-157)

The HTTP response is modelled by its content-type header, optional
declared length, and the byte chunks served by `iter_content`; the state
of the output path is threaded explicitly (`none` = no file on disk). -/

/-- The 4 bytes of `b'%PDF'`. -/
def PDF_MAGIC : List ℕ := [0x25, 0x50, 0x44, 0x46]

structure DocResponse where
  contentType : String
  contentLength : Option ℕ
  chunks : List (List ℕ)
deriving DecidableEq

/-- Python substring test `needle in haystack`. -/
def hasSubstr (haystack needle : List Char) : Bool :=
  if needle.isPrefixOf haystack then true
  else
    match haystack with
    | [] => false
    | _ :: t => hasSubstr t needle

/-- The `for chunk in response.iter_content(...)` loop: skip falsy chunks,
count bytes, abort when the running count exceeds `maxBytes` (the current
chunk is then not written), else append the chunk to the file.  Returns
whether the stream completed and the file contents written so far. -/
def streamChunks (maxBytes : ℕ) : List (List ℕ) → ℕ → List ℕ → Bool × List ℕ
  | [], _, file => (true, file)
  | chunk :: rest, downloaded, file =>
    if chunk.isEmpty then streamChunks maxBytes rest downloaded file
    else
      let downloadedNew := downloaded + chunk.length
      if maxBytes < downloadedNew then (false, file)
      else streamChunks maxBytes rest downloadedNew (file ++ chunk)

/-- The `if content_length and int(content_length) > max_bytes` gate: fires
iff a Content-Length header is present and declares more than `maxBytes`. -/
def declaredTooLarge (resp : DocResponse) (maxBytes : ℕ) : Bool :=
  match resp.contentLength with
  | some n => decide (maxBytes < n)
  | none => false

/-- `DocumentDownloader.download_with_validation` for a response that
arrived without a transport error: returns the success flag and the final
state of the output path (`none` = no file on disk). -/
def download_with_validation (resp : DocResponse) (expectedType : String)
    (maxSizeMb : ℕ) : Bool × Option (List ℕ) :=
  let maxBytes := maxSizeMb * 1024 * 1024
  if ¬ hasSubstr resp.contentType.toList expectedType.toList then
    (false, none)
  else if declaredTooLarge resp maxBytes then
    (false, none)
  else
    let r := streamChunks maxBytes resp.chunks 0 []
    if ¬ r.1 then (false, some r.2)
    else if expectedType = "application/pdf" then
      if r.2.take 4 = PDF_MAGIC then (true, some r.2) else (false, none)
    else (true, some r.2)

/-- A PDF-typed response whose single chunk is one byte over the default
50 MB limit. -/
def respOversize : DocResponse :=
  ⟨"application/pdf", none, [List.replicate (50 * 1024 * 1024 + 1) 0]⟩

/-! ## Document existence check and download (`downloader.py`, lines 194-309)

The category directory is the list of its `*.pdf` files in scan order;
each entry carries the bytes of the PDF and the parsed `.meta.json`
sidecar when one exists and parses (`none` otherwise).  The network is an
oracle giving the metadata response and the content response. -/

structure MetaSidecar where
  document_id : Option String
deriving DecidableEq

structure PdfEntry where
  name : String
  content : List ℕ
  meta : Option MetaSidecar
deriving DecidableEq

structure CategoryDir where
  pdfs : List PdfEntry
deriving DecidableEq

/-- `DocumentDownloader.check_document_exists`: first PDF in the directory
whose sidecar exists, parses, and matches `doc_id`, and whose bytes are
non-empty and start with the PDF magic. -/
def check_document_exists (doc_id : String) (dir : CategoryDir) : Option PdfEntry :=
  dir.pdfs.find? (fun e =>
    match e.meta with
    | some m =>
        decide (m.document_id = some doc_id) && decide (0 < e.content.length)
          && decide (e.content.take 4 = PDF_MAGIC)
    | none => false)

structure DocInfo where
  doc_id : String
  date : String
  description : String
  filingType : String
  category : String
deriving DecidableEq

structure DocMetadata where
  /-- `str(metadata.get('resources', {}))`. -/
  resources : String
deriving DecidableEq

/-- Network oracle for one `download_document` run. -/
structure DownloadNet where
  /-- Response to the `/document/{doc_id}` metadata request; `.error s`
  models a raised `HTTPError` with status `s`. -/
  metadataResp : Except ℕ DocMetadata
  /-- Response to the `/document/{doc_id}/content` request. -/
  contentResp : DocResponse

structure DownloadOutcome where
  ok : Bool
  reason : Option String
  dir : CategoryDir
  /-- Number of network requests issued. -/
  netCalls : ℕ
deriving DecidableEq

def fileNameTaken (dir : CategoryDir) (n : String) : Bool :=
  dir.pdfs.any (fun e => e.name == n)

def getUniqueFilenameAux (dir : CategoryDir) (base ext : String) : ℕ → ℕ → String
  | 0, k => base ++ "_" ++ toString k ++ ext
  | fuel + 1, k =>
    let cand := base ++ "_" ++ toString k ++ ext
    if fileNameTaken dir cand then getUniqueFilenameAux dir base ext fuel (k + 1)
    else cand

/-- `DocumentDownloader._get_unique_filename` (the unbounded counter loop
terminates within `|dir| + 1` probes, supplied as fuel). -/
def getUniqueFilename (dir : CategoryDir) (base ext : String) : String :=
  let cand := base ++ ext
  if fileNameTaken dir cand then getUniqueFilenameAux dir base ext (dir.pdfs.length + 1) 2
  else cand

/-- Python `date.replace('-', '')`. -/
def removeDashes (s : String) : String :=
  String.mk (s.toList.filter (fun c => c != '-'))

/-- `DocumentDownloader.download_document`: skip when a valid artifact
exists, else fetch metadata, download the PDF with validation into a
fresh filename, and write the sidecar on success.  The XBRL side download
touches no `*.pdf` file and is omitted; `netCalls` counts the metadata and
PDF content requests. -/
def download_document (net : DownloadNet) (doc_id : String) (docInfo : DocInfo)
    (dir : CategoryDir) (companyNumber : String) (skipExisting : Bool) :
    DownloadOutcome :=
  if skipExisting ∧ (check_document_exists doc_id dir).isSome then
    ⟨true, some "already_exists", dir, 0⟩
  else
    match net.metadataResp with
    | .error status =>
        if status = 404 then ⟨false, some "Document not found (404)", dir, 1⟩
        else ⟨false, some ("HTTP " ++ toString status), dir, 1⟩
    | .ok _ =>
        let date := removeDashes docInfo.date
        let descr := String.mk (docInfo.description.toList.take 50)
        let filenameBase :=
          sanitize_filename (date ++ "_" ++ docInfo.filingType ++ "_" ++ descr) 255
        let pdfName := getUniqueFilename dir filenameBase ".pdf"
        let v := download_with_validation net.contentResp "application/pdf" 50
        if v.1 = false then
          ⟨false, some "PDF download failed",
            (match v.2 with
             | some c => ⟨dir.pdfs ++ [⟨pdfName, c, none⟩]⟩
             | none => dir), 2⟩
        else
          ⟨true, none,
            ⟨dir.pdfs ++ [⟨pdfName, v.2.getD [], some ⟨some docInfo.doc_id⟩⟩]⟩, 2⟩


/-- A category directory already holding a valid artifact for `"d1"`. -/
def dirWithArtifact : CategoryDir := ⟨[⟨"f.pdf", PDF_MAGIC, some ⟨some "d1"⟩⟩]⟩

/-- A network oracle whose metadata call succeeds and whose content call
serves a well-formed 4-byte PDF. -/
def netGoodPdf : DownloadNet := ⟨.ok ⟨""⟩, ⟨"application/pdf", none, [PDF_MAGIC]⟩⟩

def docInfoD2 : DocInfo := ⟨"d2", "2020-01-01", "annual accounts", "AA", "accounts"⟩

end CompaniesHouse

namespace CompaniesHouse

theorem pruneWindow_length_le (w now : ℚ) (ts : List ℚ) :
    (pruneWindow w now ts).length ≤ ts.length := by
  induction ts with
  | nil => simp [pruneWindow]
  | cons t ts ih =>
    simp only [pruneWindow]
    split
    · exact Nat.le_succ_of_le ih
    · simp

theorem pruneWindow_head_ge (w now : ℚ) (ts : List ℚ) (x : ℚ)
    (hx : x ∈ (pruneWindow w now ts).head?) : now - w ≤ x := by
  induction ts with
  | nil => simp [pruneWindow] at hx
  | cons t ts ih =>
    simp only [pruneWindow] at hx
    split at hx
    · exact ih hx
    · next h =>
      simp only [List.head?_cons, Option.mem_def, Option.some.injEq] at hx
      subst hx
      linarith [not_lt.mp h]

theorem wait_if_needed_length_le (s : RateLimiterState) (now : ℚ)
    (hC : 0 < s.maxRequests) (hlen : s.requests.length ≤ s.maxRequests) :
    (wait_if_needed s now).1.requests.length ≤ s.maxRequests := by
  have hp := pruneWindow_length_le s.windowSeconds now s.requests
  simp only [wait_if_needed]
  split
  · next h =>
    have hne : pruneWindow s.windowSeconds now s.requests ≠ [] := by
      intro habs
      rw [habs] at h
      simp at h
      omega
    simp only [List.length_append, List.length_tail, List.length_singleton]
    have := List.length_pos.mpr hne
    omega
  · next h =>
    simp only [List.length_append, List.length_singleton]
    omega

theorem wait_if_needed_maxRequests (s : RateLimiterState) (now : ℚ) :
    (wait_if_needed s now).1.maxRequests = s.maxRequests := by
  simp only [wait_if_needed]
  split <;> rfl

theorem runCalls_length_le (C : ℕ) (hC : 0 < C) (calls : List ℚ)
    (s : RateLimiterState) (hm : s.maxRequests = C)
    (hlen : s.requests.length ≤ C) :
    (runCalls s calls).requests.length ≤ C := by
  induction calls generalizing s with
  | nil => simpa [runCalls] using hlen
  | cons now rest ih =>
    simp only [runCalls]
    refine ih _ ?_ ?_
    · rw [wait_if_needed_maxRequests, hm]
    · have h := wait_if_needed_length_le s now (by omega) (by omega)
      omega

theorem countWithin_le_length (t w : ℚ) (ts : List ℚ) :
    countWithin t w ts ≤ ts.length := by
  unfold countWithin
  exact List.length_filter_le _ _

theorem wait_if_needed_sleep_nonneg (s : RateLimiterState) (now : ℚ)
    (hC : 0 < s.maxRequests) :
    0 ≤ (wait_if_needed s now).2 := by
  simp only [wait_if_needed]
  split
  · next h =>
    have hne : pruneWindow s.windowSeconds now s.requests ≠ [] := by
      intro habs
      rw [habs] at h
      simp at h
      omega
    have hmem : (pruneWindow s.windowSeconds now s.requests).headD 0 ∈
        (pruneWindow s.windowSeconds now s.requests).head? := by
      cases hh : (pruneWindow s.windowSeconds now s.requests).head? with
      | none => exact absurd (List.head?_eq_none_iff.mp hh) hne
      | some y => simp [List.headD_eq_head?, hh]
    have := pruneWindow_head_ge s.windowSeconds now s.requests _ hmem
    simp only
    linarith
  · simp

theorem wait_if_needed_sleep_at_capacity (s : RateLimiterState) (now : ℚ)
    (h : s.maxRequests ≤ (pruneWindow s.windowSeconds now s.requests).length) :
    (wait_if_needed s now).2 =
      (pruneWindow s.windowSeconds now s.requests).headD 0 + s.windowSeconds - now := by
  simp only [wait_if_needed]
  split
  · rfl
  · next hn => exact absurd h hn

/-- C1: for every sequence of calls to `wait_if_needed` with ceiling `C > 0`
and window `W`, after each call the number of recorded timestamps within the
trailing `W` seconds (indeed at any observation time) is at most `C`; a call
made when the recorded in-window count has reached `C` sleeps exactly
`oldest_ts + W - now`; and the computed sleep duration is never negative. -/
theorem rateLimiter_window_invariant
    (C : ℕ) (W : ℚ) (hC : 0 < C) (calls : List ℚ) (t : ℚ)
    (s : RateLimiterState) (now : ℚ)
    (hm : s.maxRequests = C) (hw : s.windowSeconds = W)
    (hlen : s.requests.length ≤ C) :
    countWithin t W (runCalls (RateLimiterState.init C W) calls).requests ≤ C
    ∧ (wait_if_needed s now).1.requests.length ≤ C
    ∧ countWithin (now + (wait_if_needed s now).2) W (wait_if_needed s now).1.requests ≤ C
    ∧ 0 ≤ (wait_if_needed s now).2
    ∧ (C ≤ (pruneWindow W now s.requests).length →
        (wait_if_needed s now).2 = (pruneWindow W now s.requests).headD 0 + W - now) := by
  subst hm hw
  have hrun := runCalls_length_le s.maxRequests hC calls
    (RateLimiterState.init s.maxRequests s.windowSeconds) rfl (by simp [RateLimiterState.init])
  have hstep := wait_if_needed_length_le s now hC hlen
  refine ⟨le_trans (countWithin_le_length _ _ _) hrun,
          hstep,
          le_trans (countWithin_le_length _ _ _) hstep,
          wait_if_needed_sleep_nonneg s now hC,
          fun h => wait_if_needed_sleep_at_capacity s now h⟩

/-- Witness for C1 at ceiling 2, window 10, call times `[0, 1, 2]`. -/
theorem rateLimiter_window_invariant_witness :
    countWithin 20 10 (runCalls (RateLimiterState.init 2 10) [0, 1, 2]).requests ≤ 2
    ∧ (wait_if_needed (RateLimiterState.init 2 10) 0).1.requests.length ≤ 2
    ∧ countWithin (0 + (wait_if_needed (RateLimiterState.init 2 10) 0).2) 10
        (wait_if_needed (RateLimiterState.init 2 10) 0).1.requests ≤ 2
    ∧ 0 ≤ (wait_if_needed (RateLimiterState.init 2 10) 0).2
    ∧ (2 ≤ (pruneWindow 10 0 (RateLimiterState.init 2 10).requests).length →
        (wait_if_needed (RateLimiterState.init 2 10) 0).2 =
          (pruneWindow 10 0 (RateLimiterState.init 2 10).requests).headD 0 + 10 - 0) :=
  rateLimiter_window_invariant 2 10 (by decide) [0, 1, 2] 20
    (RateLimiterState.init 2 10) 0 rfl rfl (by decide)

end CompaniesHouse

namespace CompaniesHouse

theorem paginatedLoop_always_full (remote : ℕ → PageResponse) (ipp : ℕ)
    (hipp : 0 < ipp)
    (hfull : ∀ s, (remote s).items.length = ipp ∧
      (remote s).total_count = none ∧ (remote s).total_results = none) :
    ∀ fuel startIndex acc reqs,
      (paginatedLoop remote ipp fuel startIndex acc reqs).2 = reqs + fuel ∧
      (paginatedLoop remote ipp fuel startIndex acc reqs).1.length =
        acc.length + fuel * ipp := by
  intro fuel
  induction fuel with
  | zero => intro startIndex acc reqs; simp [paginatedLoop]
  | succ n ih =>
    intro startIndex acc reqs
    obtain ⟨hlen, htc, htr⟩ := hfull startIndex
    have hne : (remote startIndex).items.isEmpty = false := by
      rw [List.isEmpty_eq_false]
      intro habs
      rw [habs] at hlen
      simp at hlen
      omega
    have hnp : ¬ (remote startIndex).items.length < ipp := by omega
    have htot : selectTotal (remote startIndex).total_count
        (remote startIndex).total_results = 0 := by
      rw [htc, htr]; rfl
    simp only [paginatedLoop, hne, htot, hnp, Bool.false_eq_true, if_false,
      lt_irrefl, false_and, and_false]
    obtain ⟨ih2, ih1⟩ := ih (startIndex + ipp) (acc ++ (remote startIndex).items) (reqs + 1)
    refine ⟨by rw [ih2]; omega, ?_⟩
    rw [ih1]
    simp only [List.length_append, hlen]
    ring

end CompaniesHouse

namespace CompaniesHouse

/-- C2 counterexample: for a remote serving pages of sizes `[100, 100, 0]`
(and signalling no total), `_paginated_get` issues 3 page requests, not 2 as
claimed: the empty third page must itself be fetched before the zero-items
check can fire. -/
theorem paginated_get_100_100_0_three_requests :
    (paginated_get remotePages100_100_0 100).2 = 3 ∧
    ¬ (paginated_get remotePages100_100_0 100).2 = 2 := by decide

/-- C2 (amended): for a remote returning pages of sizes `[100, 100, 37]`
with page size 100, `_paginated_get` issues exactly 3 page requests and
returns 237 items; for pages `[100, 100, 0]` it issues exactly 3 requests
(the third fetches the empty page, and the zero-items check fires there
before the total-count check is examined); and for a remote that always
returns a full page and never signals a total, the fetch stops exactly at
the iteration ceiling, returning the items accumulated so far without
raising an error. -/
theorem paginated_get_scenarios (remote : ℕ → PageResponse) (itemsPerPage : ℕ)
    (hipp : 0 < itemsPerPage)
    (hfull : ∀ s, (remote s).items.length = itemsPerPage ∧
      (remote s).total_count = none ∧ (remote s).total_results = none) :
    ((paginated_get remotePages100_100_37 100).1.items.length = 237
      ∧ (paginated_get remotePages100_100_37 100).2 = 3)
    ∧ (paginated_get remotePages100_100_0 100).2 = 3
    ∧ ((paginated_get remote itemsPerPage).2 = MAX_PAGINATION_ITERATIONS
      ∧ (paginated_get remote itemsPerPage).1.items.length =
          MAX_PAGINATION_ITERATIONS * itemsPerPage) := by
  obtain ⟨h2, h1⟩ := paginatedLoop_always_full remote itemsPerPage hipp hfull
    MAX_PAGINATION_ITERATIONS 0 [] 0
  exact ⟨⟨by decide, by decide⟩, by decide,
    by simpa [paginated_get] using h2,
    by simpa [paginated_get] using h1⟩

/-- Witness for C2 with the always-full remote at page size 1. -/
theorem paginated_get_scenarios_witness :
    ((paginated_get remotePages100_100_37 100).1.items.length = 237
      ∧ (paginated_get remotePages100_100_37 100).2 = 3)
    ∧ (paginated_get remotePages100_100_0 100).2 = 3
    ∧ ((paginated_get remoteAlwaysFull 1).2 = MAX_PAGINATION_ITERATIONS
      ∧ (paginated_get remoteAlwaysFull 1).1.items.length =
          MAX_PAGINATION_ITERATIONS * 1) :=
  paginated_get_scenarios remoteAlwaysFull 1 (by decide) (fun _ => ⟨rfl, rfl, rfl⟩)

/-- C10: the dictionary returned by `_paginated_get` always satisfies
`total_results == len(items)`: the reported total is the count of items
actually accumulated, never the remote-reported total. -/
theorem paginated_get_total_results_eq_length
    (remote : ℕ → PageResponse) (itemsPerPage : ℕ) :
    (paginated_get remote itemsPerPage).1.total_results =
      (paginated_get remote itemsPerPage).1.items.length := rfl

end CompaniesHouse

namespace CompaniesHouse

/-- C8 counterexample: when the remote reports `total_count = 0` alongside
`total_results = 5`, the code's `data.get('total_count') or
data.get('total_results', 0)` yields 5: the first field is not preferred
when present with value zero. -/
theorem selectTotal_zero_first_not_preferred :
    selectTotal (some 0) (some 5) = 5 ∧ ¬ selectTotal (some 0) (some 5) = 0 := by
  decide

/-- C8 (amended): in each pagination step the fetch reads the total from two
alternate field names, preferring the first whenever it is present with a
nonzero value and falling back to the second (default 0) when the first is
missing or zero; the partial-page stop is checked before the total-count
stop (a nonempty partial page ends the loop regardless of the total
fields); and the total-count stop fires only when the selected total is
positive and the accumulated item count has reached or passed it, the loop
otherwise continuing to the next page. -/
theorem pagination_total_selection_and_stop_order
    (tr : Option ℤ) (v : ℤ) (hv : v ≠ 0)
    (r1 : ℕ → PageResponse) (ipp1 fuel1 start1 reqs1 : ℕ) (acc1 : List ℕ)
    (h1ne : (r1 start1).items ≠ [])
    (h1p : (r1 start1).items.length < ipp1)
    (r2 : ℕ → PageResponse) (ipp2 fuel2 start2 reqs2 : ℕ) (acc2 : List ℕ)
    (h2ne : (r2 start2).items ≠ [])
    (h2np : ¬ (r2 start2).items.length < ipp2)
    (h2tot : ¬ (0 < selectTotal (r2 start2).total_count (r2 start2).total_results
      ∧ selectTotal (r2 start2).total_count (r2 start2).total_results ≤
          ((acc2 ++ (r2 start2).items).length : ℤ)))
    (r3 : ℕ → PageResponse) (ipp3 fuel3 start3 reqs3 : ℕ) (acc3 : List ℕ)
    (h3ne : (r3 start3).items ≠ [])
    (h3np : ¬ (r3 start3).items.length < ipp3)
    (h3tot : 0 < selectTotal (r3 start3).total_count (r3 start3).total_results
      ∧ selectTotal (r3 start3).total_count (r3 start3).total_results ≤
          ((acc3 ++ (r3 start3).items).length : ℤ)) :
    selectTotal (some v) tr = v
    ∧ selectTotal none tr = tr.getD 0
    ∧ selectTotal (some 0) tr = tr.getD 0
    ∧ paginatedLoop r1 ipp1 (fuel1 + 1) start1 acc1 reqs1 =
        (acc1 ++ (r1 start1).items, reqs1 + 1)
    ∧ paginatedLoop r2 ipp2 (fuel2 + 1) start2 acc2 reqs2 =
        paginatedLoop r2 ipp2 fuel2 (start2 + ipp2) (acc2 ++ (r2 start2).items) (reqs2 + 1)
    ∧ paginatedLoop r3 ipp3 (fuel3 + 1) start3 acc3 reqs3 =
        (acc3 ++ (r3 start3).items, reqs3 + 1) := by
  refine ⟨by simp [selectTotal, hv], rfl, by simp [selectTotal], ?_, ?_, ?_⟩
  · have hne : (r1 start1).items.isEmpty = false := List.isEmpty_eq_false.mpr h1ne
    simp only [paginatedLoop, hne, Bool.false_eq_true, if_false, h1p, if_true]
  · have hne : (r2 start2).items.isEmpty = false := List.isEmpty_eq_false.mpr h2ne
    simp only [paginatedLoop, hne, Bool.false_eq_true, if_false, h2np, h2tot]
  · have hne : (r3 start3).items.isEmpty = false := List.isEmpty_eq_false.mpr h3ne
    simp only [paginatedLoop, hne, Bool.false_eq_true, if_false, h3np, h3tot, and_self,
      if_true]

/-- Witness for C8: partial page at index 200 of the `[100, 100, 37]`
remote; a full no-total page of the same remote; and a full page of a
remote reporting `total_count = 1`. -/
theorem pagination_total_selection_and_stop_order_witness :
    selectTotal (some 7) (some 3) = 7
    ∧ selectTotal none (some 3) = (some 3 : Option ℤ).getD 0
    ∧ selectTotal (some 0) (some 3) = (some 3 : Option ℤ).getD 0
    ∧ paginatedLoop remotePages100_100_37 100 (5 + 1) 200 [] 2 =
        ([] ++ (remotePages100_100_37 200).items, 2 + 1)
    ∧ paginatedLoop remotePages100_100_37 100 (0 + 1) 0 [] 0 =
        paginatedLoop remotePages100_100_37 100 0 (0 + 100)
          ([] ++ (remotePages100_100_37 0).items) (0 + 1)
    ∧ paginatedLoop remoteTotalOne 1 (5 + 1) 0 [] 0 =
        ([] ++ (remoteTotalOne 0).items, 0 + 1) :=
  pagination_total_selection_and_stop_order (some 3) 7 (by decide)
    remotePages100_100_37 100 5 200 2 [] (by decide) (by decide)
    remotePages100_100_37 100 0 0 0 [] (by decide) (by decide) (by decide)
    remoteTotalOne 1 5 0 0 [] (by decide) (by decide) (by decide)

end CompaniesHouse

namespace CompaniesHouse

/-- C7: `"123"` normalizes to `"00000123"`, `"oc123456"` to `"OC123456"`,
`"toolongid123"` and `""` are rejected; in general the accepted result is
the trimmed, upper-cased input, zero-padded to 8 characters when purely
numeric, and an input not matching 1-8 alphanumeric characters after
trimming is rejected with a validation error. -/
theorem validate_company_number_spec (s : String) :
    validate_company_number "123" = .ok "00000123"
    ∧ validate_company_number "oc123456" = .ok "OC123456"
    ∧ (validate_company_number "toolongid123").isOk = false
    ∧ (validate_company_number "").isOk = false
    ∧ (validate_company_number s).toOption =
        (let n := (pyStrip s.toList).map Char.toUpper
         if 1 ≤ n.length ∧ n.length ≤ 8 ∧ n.all isUpperAlnum then
           some (String.mk
             (if pyIsDigit n then List.replicate (8 - n.length) '0' ++ n else n))
         else none) := by
  refine ⟨rfl, rfl, by decide, by decide, ?_⟩
  by_cases h0 : s = ""
  · subst h0; decide
  · simp only [validate_company_number, h0, if_false]
    split_ifs <;> simp [Except.toOption]

end CompaniesHouse

namespace CompaniesHouse

theorem sanitizeTruncate_ext (f2 : List Char) (maxLength : ℕ) (name ext : List Char)
    (hlt : maxLength < f2.length) (hdot : f2.contains '.' = true)
    (hsplit : rsplitDot f2 = (name, ext)) (hext : ext ≠ []) :
    sanitizeTruncate f2 maxLength =
      pySliceTo name ((maxLength : ℤ) - ext.length - 1) ++ '.' :: ext := by
  simp only [sanitizeTruncate, if_pos hlt, hdot, if_true, hsplit, hext, ne_eq,
    not_false_eq_true]

theorem sanitizeTruncate_no_dot (f2 : List Char) (maxLength : ℕ)
    (hlt : maxLength < f2.length) (hdot : f2.contains '.' = false) :
    sanitizeTruncate f2 maxLength = f2.take maxLength := by
  simp only [sanitizeTruncate, if_pos hlt, hdot, Bool.false_eq_true, if_false, ne_eq,
    not_true_eq_false, not_false_eq_true]

theorem sanitize_ite_ne_empty (l : List Char) :
    (if l = [] then "unnamed" else String.mk l) ≠ "" := by
  split
  · decide
  · next h =>
    intro habs
    exact h (by simpa using congrArg String.data habs)

theorem sanitize_eq_of_ne_nil (l : List Char) (h : l ≠ []) :
    (if l = [] then "unnamed" else String.mk l) = String.mk l := by
  simp [h]

end CompaniesHouse

namespace CompaniesHouse

/-- C9 counterexample: when the extension alone meets or passes the length
limit, the truncated result still exceeds the limit: `"a.wxyz"` with limit 3
sanitizes to `".wxyz"` of length 5, and a 257-character name (`"x."`
followed by 255 `'a'`s) with the default limit 255 sanitizes to a
256-character result. -/
theorem sanitize_filename_overlong_extension_exceeds_limit :
    (sanitize_filename "a.wxyz" 3).length = 5
    ∧ ¬ (sanitize_filename "a.wxyz" 3).length ≤ 3
    ∧ (sanitize_filename (String.mk ('x' :: '.' :: List.replicate 255 'a')) 255).length
        = 256 := by
  decide

/-- C9 (amended): every invalid character (`:`, `?`, `/`, ...) is replaced
one-for-one with an underscore; a name exceeding the length limit is
truncated with the extension after the last dot preserved, and the result
stays within the limit whenever the extension together with its dot fits
within the limit (when the extension alone meets or passes the limit, the
preserved extension makes the result exceed it); an all-invalid or empty
input yields a non-empty fallback name, and the result is never the empty
string. -/
theorem sanitize_filename_spec (s : String) (maxLength : ℕ) (hmax : 1 ≤ maxLength) :
    sanitize_filename "file:name?.pdf" 255 = "file_name_.pdf"
    ∧ sanitize_filename "a/b:c" 255 = "a_b_c"
    ∧ (replaceInvalidChars s.toList).length = s.toList.length
    ∧ sanitize_filename s maxLength ≠ ""
    ∧ sanitize_filename "" 255 = "unnamed"
    ∧ sanitize_filename ":::" 255 = "___"
    ∧ (maxLength < (stripDotsSpaces (replaceInvalidChars s.toList)).length →
        (((stripDotsSpaces (replaceInvalidChars s.toList)).contains '.' = false →
            (sanitize_filename s maxLength).length ≤ maxLength)
         ∧ (∀ name ext,
              rsplitDot (stripDotsSpaces (replaceInvalidChars s.toList)) = (name, ext) →
              ext ≠ [] →
              (stripDotsSpaces (replaceInvalidChars s.toList)).contains '.' = true →
              ((sanitize_filename s maxLength).toList =
                  pySliceTo name ((maxLength : ℤ) - ext.length - 1) ++ '.' :: ext
               ∧ (ext.length + 1 ≤ maxLength →
                  (sanitize_filename s maxLength).length ≤ maxLength))))) := by
  refine ⟨by decide, by decide, by simp [replaceInvalidChars], ?_, by decide, by decide, ?_⟩
  · exact sanitize_ite_ne_empty _
  · intro hlt
    set f2 := stripDotsSpaces (replaceInvalidChars s.toList) with hf2
    constructor
    · intro hnd
      have hcore := sanitizeTruncate_no_dot f2 maxLength hlt hnd
      have hne : f2.take maxLength ≠ [] := by
        intro habs
        have := congrArg List.length habs
        simp only [List.length_take, List.length_nil] at this
        omega
      show (if sanitizeTruncate f2 maxLength = [] then "unnamed"
        else String.mk (sanitizeTruncate f2 maxLength)).length ≤ maxLength
      rw [hcore, sanitize_eq_of_ne_nil _ hne]
      show (f2.take maxLength).length ≤ maxLength
      simp [List.length_take]
    · intro name ext hsplit hext hdot
      have hcore := sanitizeTruncate_ext f2 maxLength name ext hlt hdot hsplit hext
      have hne : pySliceTo name ((maxLength : ℤ) - ext.length - 1) ++ '.' :: ext ≠ [] := by
        intro habs
        rw [List.append_eq_nil] at habs
        exact List.cons_ne_nil _ _ habs.2
      constructor
      · show (if sanitizeTruncate f2 maxLength = [] then "unnamed"
          else String.mk (sanitizeTruncate f2 maxLength)).toList = _
        rw [hcore, sanitize_eq_of_ne_nil _ hne]
        rfl
      · intro hfit
        show (if sanitizeTruncate f2 maxLength = [] then "unnamed"
          else String.mk (sanitizeTruncate f2 maxLength)).length ≤ maxLength
        rw [hcore, sanitize_eq_of_ne_nil _ hne]
        show (pySliceTo name ((maxLength : ℤ) - ext.length - 1) ++ '.' :: ext).length
          ≤ maxLength
        have hj : (0 : ℤ) ≤ (maxLength : ℤ) - ext.length - 1 := by
          omega
        rw [pySliceTo, if_pos hj]
        simp only [List.length_append, List.length_take, List.length_cons]
        have hjn : ((maxLength : ℤ) - ext.length - 1).toNat = maxLength - ext.length - 1 := by
          omega
        rw [hjn]
        omega

/-- Witness for C9 at `s = "abcdef.xy"`, limit 5. -/
theorem sanitize_filename_spec_witness :
    sanitize_filename "file:name?.pdf" 255 = "file_name_.pdf"
    ∧ sanitize_filename "a/b:c" 255 = "a_b_c"
    ∧ (replaceInvalidChars ("abcdef.xy" : String).toList).length
        = ("abcdef.xy" : String).toList.length
    ∧ sanitize_filename "abcdef.xy" 5 ≠ ""
    ∧ sanitize_filename "" 255 = "unnamed"
    ∧ sanitize_filename ":::" 255 = "___"
    ∧ (5 < (stripDotsSpaces (replaceInvalidChars ("abcdef.xy" : String).toList)).length →
        (((stripDotsSpaces (replaceInvalidChars ("abcdef.xy" : String).toList)).contains '.'
            = false →
            (sanitize_filename "abcdef.xy" 5).length ≤ 5)
         ∧ (∀ name ext,
              rsplitDot (stripDotsSpaces (replaceInvalidChars ("abcdef.xy" : String).toList))
                = (name, ext) →
              ext ≠ [] →
              (stripDotsSpaces (replaceInvalidChars ("abcdef.xy" : String).toList)).contains '.'
                = true →
              ((sanitize_filename "abcdef.xy" 5).toList =
                  pySliceTo name ((5 : ℤ) - ext.length - 1) ++ '.' :: ext
               ∧ (ext.length + 1 ≤ 5 →
                  (sanitize_filename "abcdef.xy" 5).length ≤ 5))))) :=
  sanitize_filename_spec "abcdef.xy" 5 (by decide)

end CompaniesHouse

namespace CompaniesHouse

theorem update_progress_wellFormed (file : Option Progress) (doc_id : String)
    (success : Bool) (error : Option String)
    (hwf : ∀ p, file = some p → p.wellFormed) :
    (update_progress file doc_id success error).wellFormed := by
  have hp : (file.getD Progress.initial).wellFormed := by
    cases file with
    | none => exact ⟨List.nodup_nil, rfl⟩
    | some p => exact hwf p rfl
  obtain ⟨hnd, hlen⟩ := hp
  unfold update_progress
  cases success with
  | false => simpa [Progress.wellFormed] using ⟨hnd, hlen⟩
  | true =>
    by_cases hmem : doc_id ∈ (file.getD Progress.initial).completed
    · simpa [Progress.wellFormed, hmem] using ⟨hnd, hlen⟩
    · simp only [Progress.wellFormed, hmem, if_true, if_false]
      refine ⟨?_, by trivial⟩
      simp [List.nodup_append, hnd, hmem]

theorem runUpdates_wellFormed (p : Progress) (hp : p.wellFormed)
    (ops : List (String × Bool × Option String)) :
    (runUpdates p ops).wellFormed := by
  induction ops generalizing p with
  | nil => simpa [runUpdates] using hp
  | cons op rest ih =>
    obtain ⟨d, succ, e⟩ := op
    simp only [runUpdates]
    exact ih _ (update_progress_wellFormed (some p) d succ e (fun q hq => by
      cases hq; exact hp))

/-- C3: starting from a missing or well-formed progress record, after every
successful update the completed list has no duplicate doc_id and the
downloaded counter equals the completed count — in fact every
`update_progress` call (and any sequence of them) preserves this, even when
the same doc_id is marked complete twice. -/
theorem progress_update_invariant (file : Option Progress) (doc_id : String)
    (success : Bool) (error : Option String)
    (hwf : ∀ p, file = some p → p.wellFormed)
    (p0 : Progress) (hp0 : p0.wellFormed)
    (ops : List (String × Bool × Option String)) :
    ((update_progress file doc_id success error).completed.Nodup
      ∧ (update_progress file doc_id success error).downloaded =
          (update_progress file doc_id success error).completed.length)
    ∧ ((runUpdates p0 ops).completed.Nodup
      ∧ (runUpdates p0 ops).downloaded = (runUpdates p0 ops).completed.length)
    ∧ ((update_progress (some (update_progress (some p0) doc_id true none))
          doc_id true none).completed.Nodup
      ∧ (update_progress (some (update_progress (some p0) doc_id true none))
          doc_id true none).downloaded =
        (update_progress (some (update_progress (some p0) doc_id true none))
          doc_id true none).completed.length) :=
  ⟨update_progress_wellFormed file doc_id success error hwf,
   runUpdates_wellFormed p0 hp0 ops,
   update_progress_wellFormed _ doc_id true none (fun q hq => by
     cases hq
     exact update_progress_wellFormed (some p0) doc_id true none (fun r hr => by
       cases hr; exact hp0))⟩

/-- Witness for C3: missing file, then a fresh record, marking `"d1"`
complete twice. -/
theorem progress_update_invariant_witness :
    (((update_progress none "d1" true none).completed.Nodup
      ∧ (update_progress none "d1" true none).downloaded =
          (update_progress none "d1" true none).completed.length)
    ∧ ((runUpdates Progress.initial
          [("d1", true, none), ("d1", true, none), ("d2", false, some "HTTP 500")]).completed.Nodup
      ∧ (runUpdates Progress.initial
          [("d1", true, none), ("d1", true, none), ("d2", false, some "HTTP 500")]).downloaded =
        (runUpdates Progress.initial
          [("d1", true, none), ("d1", true, none), ("d2", false, some "HTTP 500")]).completed.length)
    ∧ ((update_progress (some (update_progress (some Progress.initial) "d1" true none))
          "d1" true none).completed.Nodup
      ∧ (update_progress (some (update_progress (some Progress.initial) "d1" true none))
          "d1" true none).downloaded =
        (update_progress (some (update_progress (some Progress.initial) "d1" true none))
          "d1" true none).completed.length)) :=
  progress_update_invariant none "d1" true none
    (fun p hp => by cases hp) Progress.initial ⟨List.nodup_nil, rfl⟩
    [("d1", true, none), ("d1", true, none), ("d2", false, some "HTTP 500")]

end CompaniesHouse

namespace CompaniesHouse

theorem get_all_data_foldl (fetch : String → Except String ℕ)
    (keys : List String) (acc : AllDataResult) :
    (keys.foldl
      (fun acc key =>
        match fetch key with
        | .ok d => { acc with results := acc.results ++ [(key, some d)] }
        | .error e =>
            { results := acc.results ++ [(key, none)],
              errors := acc.errors ++ [(key, e)] })
      acc).results = acc.results ++ keys.map (fun k => (k, (fetch k).toOption))
    ∧ (keys.foldl
      (fun acc key =>
        match fetch key with
        | .ok d => { acc with results := acc.results ++ [(key, some d)] }
        | .error e =>
            { results := acc.results ++ [(key, none)],
              errors := acc.errors ++ [(key, e)] })
      acc).errors = acc.errors ++ keys.filterMap (fun k =>
        match fetch k with
        | .ok _ => none
        | .error e => some (k, e)) := by
  induction keys generalizing acc with
  | nil => simp
  | cons k t ih =>
    simp only [List.foldl_cons, List.map_cons, List.filterMap_cons]
    cases hk : fetch k with
    | ok d =>
      obtain ⟨ih1, ih2⟩ := ih { acc with results := acc.results ++ [(k, some d)] }
      constructor
      · rw [ih1]
        simp [hk, Except.toOption]
      · rw [ih2]
    | error e =>
      obtain ⟨ih1, ih2⟩ := ih
        { results := acc.results ++ [(k, none)], errors := acc.errors ++ [(k, e)] }
      constructor
      · rw [ih1]
        simp [hk, Except.toOption]
      · rw [ih2]
        simp

theorem lookup_map_pair (g : String → Option ℕ) (l : List String) (k : String)
    (hk : k ∈ l) :
    (l.map (fun x => (x, g x))).lookup k = some (g k) := by
  induction l with
  | nil => simp at hk
  | cons a t ih =>
    simp only [List.map_cons, List.lookup_cons]
    by_cases h : k = a
    · subst h
      simp
    · have hkt : k ∈ t := by
        rcases List.mem_cons.mp hk with h' | h'
        · exact absurd h' h
        · exact h'
      have hbeq : (k == a) = false := beq_eq_false_iff_ne.mpr h

      rw [hbeq]
      exact ih hkt

theorem get_all_data_results (fetch : String → Except String ℕ) :
    (get_all_data fetch).results =
      endpointKeys.map (fun k => (k, (fetch k).toOption)) := by
  have h := (get_all_data_foldl fetch endpointKeys ⟨[], []⟩).1
  simpa [get_all_data] using h

theorem get_all_data_errors (fetch : String → Except String ℕ) :
    (get_all_data fetch).errors =
      endpointKeys.filterMap (fun k =>
        match fetch k with
        | .ok _ => none
        | .error e => some (k, e)) := by
  have h := (get_all_data_foldl fetch endpointKeys ⟨[], []⟩).2
  simpa [get_all_data] using h

theorem mem_get_all_data_errors (fetch : String → Except String ℕ)
    (key : String) (e : String) (hkey : key ∈ endpointKeys) :
    (key, e) ∈ (get_all_data fetch).errors ↔ fetch key = .error e := by
  rw [get_all_data_errors, List.mem_filterMap]
  constructor
  · rintro ⟨k, _, hk⟩
    cases hfk : fetch k with
    | ok d => rw [hfk] at hk; simp at hk
    | error e' =>
      rw [hfk] at hk
      simp only [Option.some.injEq, Prod.mk.injEq] at hk
      obtain ⟨rfl, rfl⟩ := hk
      exact hfk
  · intro hf
    exact ⟨key, hkey, by rw [hf]⟩

/-- C6: the composite fetch covers all eight collection operations, each
collection's entry in the result depends only on its own fetch outcome (so
one failure never prevents the remaining collections), and a collection
key maps to null exactly when that collection appears in the failure
map. -/
theorem get_all_data_spec (fetch : String → Except String ℕ) (key : String)
    (hkey : key ∈ endpointKeys) :
    (get_all_data fetch).results.length = 8
    ∧ (get_all_data fetch).results.lookup key = some ((fetch key).toOption)
    ∧ ((get_all_data fetch).results.lookup key = some none ↔
        ∃ e, (key, e) ∈ (get_all_data fetch).errors) := by
  have hres := get_all_data_results fetch
  refine ⟨by rw [hres]; rfl, ?_, ?_⟩
  · rw [hres]
    exact lookup_map_pair _ _ _ hkey
  · rw [hres, lookup_map_pair _ _ _ hkey]
    constructor
    · intro h
      simp only [Option.some.injEq] at h
      cases hfk : fetch key with
      | ok d => rw [hfk] at h; simp [Except.toOption] at h
      | error e => exact ⟨e, (mem_get_all_data_errors fetch key e hkey).mpr hfk⟩
    · rintro ⟨e, he⟩
      have := (mem_get_all_data_errors fetch key e hkey).mp he
      rw [this]
      rfl

/-- Witness for C6: the `psc` fetch fails with a 500 while the others
succeed. -/
theorem get_all_data_spec_witness :
    (get_all_data (fun k => if k = "psc" then .error "500: server error" else .ok 0)).results.length = 8
    ∧ (get_all_data (fun k => if k = "psc" then .error "500: server error" else .ok 0)).results.lookup "psc"
        = some (((fun k => if k = "psc" then .error "500: server error" else .ok 0) "psc" : Except String ℕ).toOption)
    ∧ ((get_all_data (fun k => if k = "psc" then .error "500: server error" else .ok 0)).results.lookup "psc" = some none ↔
        ∃ e, ("psc", e) ∈ (get_all_data (fun k => if k = "psc" then .error "500: server error" else .ok 0)).errors) :=
  get_all_data_spec (fun k => if k = "psc" then .error "500: server error" else .ok 0)
    "psc" (by decide)

end CompaniesHouse


namespace CompaniesHouse

theorem streamChunks_single_over (m : ℕ) (c : List ℕ) (hne : c.isEmpty = false)
    (hover : m < c.length) :
    streamChunks m [c] 0 [] = (false, []) := by
  simp only [streamChunks, hne, Bool.false_eq_true, if_false, Nat.zero_add]
  rw [if_pos]
  omega

theorem download_oversize_eq :
    download_with_validation respOversize "application/pdf" 50 = (false, some []) := by
  have hst : streamChunks (50 * 1024 * 1024) respOversize.chunks 0 [] = (false, []) := by
    have h1 : respOversize.chunks = [List.replicate (50 * 1024 * 1024 + 1) 0] := rfl
    rw [h1]
    apply streamChunks_single_over
    · rw [List.replicate_succ]
      rfl
    · rw [List.length_replicate]
      omega
  have hsub : hasSubstr respOversize.contentType.toList
      ("application/pdf" : String).toList = true := by decide
  have hcl : declaredTooLarge respOversize (50 * 1024 * 1024) = false := rfl
  simp only [download_with_validation, hsub, hcl, not_true_eq_false, Bool.false_eq_true,
    if_false, hst]
  simp

/-- C4 counterexample: an `application/pdf` response whose observed byte
count is one over the default 50 MB limit is rejected, but the file is NOT
deleted: the output path still holds a (here just-created, still empty)
file after the rejection. -/
theorem download_oversize_keeps_partial_file :
    (download_with_validation respOversize "application/pdf" 50).1 = false
    ∧ (download_with_validation respOversize "application/pdf" 50).2 = some []
    ∧ ¬ (download_with_validation respOversize "application/pdf" 50).2 = none := by
  rw [download_oversize_eq]
  exact ⟨rfl, rfl, by simp⟩

/-- C4 (amended): expecting `application/pdf`, a response whose
content-type does not contain the expected type is rejected without
writing a final file; a response whose declared byte count exceeds the
configured maximum is rejected before anything is written; a response
whose observed byte count exceeds the maximum mid-stream is rejected but
the partially written file is left on disk (not deleted); and a response
whose first four bytes are not `%PDF` is rejected with the written file
removed. -/
theorem download_with_validation_spec (maxMb : ℕ)
    (r1 : DocResponse)
    (h1 : hasSubstr r1.contentType.toList ("application/pdf" : String).toList = false)
    (r2 : DocResponse) (n2 : ℕ)
    (h2t : hasSubstr r2.contentType.toList ("application/pdf" : String).toList = true)
    (h2l : r2.contentLength = some n2) (h2n : maxMb * 1024 * 1024 < n2)
    (r3 : DocResponse)
    (h3t : hasSubstr r3.contentType.toList ("application/pdf" : String).toList = true)
    (h3l : declaredTooLarge r3 (maxMb * 1024 * 1024) = false)
    (h3s : (streamChunks (maxMb * 1024 * 1024) r3.chunks 0 []).1 = false)
    (r4 : DocResponse)
    (h4t : hasSubstr r4.contentType.toList ("application/pdf" : String).toList = true)
    (h4l : declaredTooLarge r4 (maxMb * 1024 * 1024) = false)
    (h4s : (streamChunks (maxMb * 1024 * 1024) r4.chunks 0 []).1 = true)
    (h4m : ¬ (streamChunks (maxMb * 1024 * 1024) r4.chunks 0 []).2.take 4 = PDF_MAGIC) :
    download_with_validation r1 "application/pdf" maxMb = (false, none)
    ∧ download_with_validation r2 "application/pdf" maxMb = (false, none)
    ∧ download_with_validation r3 "application/pdf" maxMb =
        (false, some (streamChunks (maxMb * 1024 * 1024) r3.chunks 0 []).2)
    ∧ download_with_validation r4 "application/pdf" maxMb = (false, none) := by
  have h2d : declaredTooLarge r2 (maxMb * 1024 * 1024) = true := by
    simp [declaredTooLarge, h2l, h2n]
  refine ⟨?_, ?_, ?_, ?_⟩
  · simp only [download_with_validation, h1]
    simp
  · simp only [download_with_validation, h2t, h2d]
    simp
  · simp only [download_with_validation, h3t, h3l, h3s]
    simp
  · simp only [download_with_validation, h4t, h4l, h4s, h4m]
    simp [h4m]

/-- Witness for C4 with limit 0: a `text/html` response; a declared length
of 1; a one-byte over-limit stream with a within-limit declared length;
and an empty (hence magic-less) complete stream, also with a declared
length. -/
theorem download_with_validation_spec_witness :
    download_with_validation ⟨"text/html", none, []⟩ "application/pdf" 0 = (false, none)
    ∧ download_with_validation ⟨"application/pdf", some 1, []⟩ "application/pdf" 0
        = (false, none)
    ∧ download_with_validation ⟨"application/pdf", some 0, [[37]]⟩ "application/pdf" 0 =
        (false, some (streamChunks (0 * 1024 * 1024)
          (DocResponse.mk "application/pdf" (some 0) [[37]]).chunks 0 []).2)
    ∧ download_with_validation ⟨"application/pdf", some 0, []⟩ "application/pdf" 0
        = (false, none) :=
  download_with_validation_spec 0
    ⟨"text/html", none, []⟩ (by decide)
    ⟨"application/pdf", some 1, []⟩ 1 (by decide) rfl (by decide)
    ⟨"application/pdf", some 0, [[37]]⟩ (by decide) (by decide) (by decide)
    ⟨"application/pdf", some 0, []⟩ (by decide) (by decide) (by decide) (by decide)

end CompaniesHouse

namespace CompaniesHouse

theorem download_with_validation_ok (resp : DocResponse) (m : ℕ)
    (h : (download_with_validation resp "application/pdf" m).1 = true) :
    ∃ c, (download_with_validation resp "application/pdf" m).2 = some c
      ∧ c.take 4 = PDF_MAGIC := by
  revert h
  simp only [download_with_validation]
  split_ifs with h1 h2 h3 h4 <;> intro h <;> simp_all

theorem download_document_skip (net : DownloadNet) (doc_id : String)
    (docInfo : DocInfo) (dir : CategoryDir) (cn : String)
    (hex : (check_document_exists doc_id dir).isSome = true) :
    download_document net doc_id docInfo dir cn true =
      ⟨true, some "already_exists", dir, 0⟩ := by
  simp [download_document, hex]

theorem download_document_success_makes_artifact
    (net : DownloadNet) (doc_id : String) (docInfo : DocInfo) (dir : CategoryDir)
    (cn : String) (skip : Bool) (hid : docInfo.doc_id = doc_id)
    (hok : (download_document net doc_id docInfo dir cn skip).ok = true)
    (hre : (download_document net doc_id docInfo dir cn skip).reason = none) :
    (check_document_exists doc_id
      (download_document net doc_id docInfo dir cn skip).dir).isSome = true := by
  by_cases hs : (skip = true ∧ (check_document_exists doc_id dir).isSome = true)
  · rw [show download_document net doc_id docInfo dir cn skip =
      ⟨true, some "already_exists", dir, 0⟩ from by
        simp only [download_document, if_pos hs]] at hre
    simp at hre
  · rcases hnet : net.metadataResp with status | md
    · have hfail : (download_document net doc_id docInfo dir cn skip).ok = false := by
        simp only [download_document, if_neg hs, hnet]
        split_ifs <;> rfl
      rw [hfail] at hok
      simp at hok
    · by_cases hv : (download_with_validation net.contentResp "application/pdf" 50).1 = false
      · have hfail : (download_document net doc_id docInfo dir cn skip).ok = false := by
          simp only [download_document, if_neg hs, hnet, hv]
          simp
        rw [hfail] at hok
        simp at hok
      · have hvt : (download_with_validation net.contentResp "application/pdf" 50).1 = true := by
          cases h' : (download_with_validation net.contentResp "application/pdf" 50).1
          · exact absurd h' hv
          · rfl
        obtain ⟨c, hc, hmagic⟩ := download_with_validation_ok net.contentResp 50 hvt
        have hdir : (download_document net doc_id docInfo dir cn skip).dir =
            ⟨dir.pdfs ++ [⟨getUniqueFilename dir
              (sanitize_filename (removeDashes docInfo.date ++ "_" ++ docInfo.filingType
                ++ "_" ++ String.mk (docInfo.description.toList.take 50)) 255) ".pdf",
              c, some ⟨some docInfo.doc_id⟩⟩]⟩ := by
          simp only [download_document, if_neg hs, hnet, hvt, hc]
          simp
        rw [hdir]
        have hlen : 0 < c.length := by
          have h4 := congrArg List.length hmagic
          simp only [List.length_take, PDF_MAGIC, List.length_cons, List.length_nil] at h4
          omega
        apply List.find?_isSome.mpr
        refine ⟨⟨getUniqueFilename dir
              (sanitize_filename (removeDashes docInfo.date ++ "_" ++ docInfo.filingType
                ++ "_" ++ String.mk (docInfo.description.toList.take 50)) 255) ".pdf",
              c, some ⟨some docInfo.doc_id⟩⟩, ?_, ?_⟩
        · exact List.mem_append_right _ (List.mem_singleton.mpr rfl)
        · simp [check_document_exists, hid, hmagic, hlen]

end CompaniesHouse

namespace CompaniesHouse

/-- C5: when a valid artifact for the doc_id already exists in the
category directory, `download_document` with `skip_existing = true`
performs no network I/O, returns success with the "already exists"
reason, and leaves the directory (hence the existing file's bytes)
unmodified; and after any successful actual download, a repeat call with
`skip_existing = true` takes that same no-network path — so downloading
the same document twice performs network I/O on the first call only. -/
theorem download_document_skip_existing
    (net1 : DownloadNet) (doc1 cn1 : String) (info1 : DocInfo) (dir1 : CategoryDir)
    (hex : (check_document_exists doc1 dir1).isSome = true)
    (net2 net3 : DownloadNet) (doc2 cn2 cn3 : String) (info2 : DocInfo)
    (dir2 : CategoryDir) (skip2 : Bool)
    (hid : info2.doc_id = doc2)
    (hok : (download_document net2 doc2 info2 dir2 cn2 skip2).ok = true)
    (hre : (download_document net2 doc2 info2 dir2 cn2 skip2).reason = none) :
    download_document net1 doc1 info1 dir1 cn1 true =
      ⟨true, some "already_exists", dir1, 0⟩
    ∧ download_document net3 doc2 info2
        (download_document net2 doc2 info2 dir2 cn2 skip2).dir cn3 true =
      ⟨true, some "already_exists",
        (download_document net2 doc2 info2 dir2 cn2 skip2).dir, 0⟩ :=
  ⟨download_document_skip net1 doc1 info1 dir1 cn1 hex,
   download_document_skip net3 doc2 info2 _ cn3
     (download_document_success_makes_artifact net2 doc2 info2 dir2 cn2 skip2 hid hok hre)⟩

/-- Witness for C5: a directory already holding `"d1"`; then a fresh
download of `"d2"` into an empty directory followed by a skipped repeat. -/
theorem download_document_skip_existing_witness :
    download_document netGoodPdf "d1" docInfoD2 dirWithArtifact "c1" true =
      ⟨true, some "already_exists", dirWithArtifact, 0⟩
    ∧ download_document netGoodPdf "d2" docInfoD2
        (download_document netGoodPdf "d2" docInfoD2 ⟨[]⟩ "c2" true).dir "c3" true =
      ⟨true, some "already_exists",
        (download_document netGoodPdf "d2" docInfoD2 ⟨[]⟩ "c2" true).dir, 0⟩ :=
  download_document_skip_existing netGoodPdf "d1" "c1" docInfoD2 dirWithArtifact
    (by decide) netGoodPdf netGoodPdf "d2" "c2" "c3" docInfoD2 ⟨[]⟩ true rfl
    (by decide) (by decide)

end CompaniesHouse
